import Mathlib

/-!
Verification of the face_looker repository's functional core against its
specification.  The repository has two pieces: a Grid Generator (a Python
driver `main.py` orchestrated by `generate.sh`) that enumerates a 2D grid of
gaze coordinates and requests one rendered image per coordinate, and a Gaze
Resolver (a React hook `useGazeTracking.js`) that maps a pointer position
inside a container to the nearest grid coordinate and swaps the displayed
asset.  `generate.sh` is present in the snapshot and is embedded directly;
`main.py` and `useGazeTracking.js` are not in the snapshot, so their logic is
modelled from the specification text (each such definition is marked).
All numeric state is modelled over `ℚ` (the CLI accepts fractional steps such
as 2.5, and pointer arithmetic is exact rational arithmetic here).
-/

namespace FaceLooker

/-- Clamp a value into the closed interval from `lo` to `hi`. -/
def clampQ (lo hi v : ℚ) : ℚ := max lo (min hi v)

/-- Modelled from the spec: the Resolver's normalization step in
`useGazeTracking.js` (absent from the snapshot) — a linear map from a
container-relative pixel offset `pos` within a container of extent `size`
onto the gaze range from `lo` to `hi`, clamped at the container edges. -/
def normalizeQ (lo hi size pos : ℚ) : ℚ :=
  clampQ lo hi (lo + pos / size * (hi - lo))

/-- Modelled from the spec: the Resolver's snapping step in
`useGazeTracking.js` (absent from the snapshot) — round the normalized value
to the nearest multiple of `step` (round-half-up, the documented consistent
tie rule), then clamp again to the gaze range. -/
def snapQ (lo hi step v : ℚ) : ℚ :=
  clampQ lo hi ((round (v / step) : ℤ) * step)

/-- Modelled from the spec: one axis of the Resolver's pointer-to-coordinate
resolution — normalize the pixel offset, then snap to the grid. -/
def resolveAxis (lo hi step size pos : ℚ) : ℚ :=
  snapQ lo hi step (normalizeQ lo hi size pos)

/-- Modelled from the spec: full 2D resolution of a pointer sample `(x, y)`
inside a `w × h` container; each axis is resolved independently. -/
def resolvePoint (lo hi step w h x y : ℚ) : ℚ × ℚ :=
  (resolveAxis lo hi step w x, resolveAxis lo hi step h y)

/-- Modelled from the spec: `main.py`'s per-axis coordinate enumeration
(`main.py` is absent from the snapshot) — values advance from `v` by `step`
while they remain at or below `maxV`, truncating rather than overshooting. -/
def axisValues (maxV step v : ℚ) : List ℚ :=
  if h : 0 < step ∧ v ≤ maxV then
    v :: axisValues maxV step (v + step)
  else
    []
termination_by (⌊(maxV - v) / step⌋ + 1).toNat
decreasing_by
  obtain ⟨hs, hv⟩ := h
  have h0 : (0:ℚ) ≤ (maxV - v) / step := div_nonneg (by linarith) hs.le
  have heq : (maxV - (v + step)) / step = (maxV - v) / step - 1 := by
    field_simp
    ring
  have hfl : ⌊(maxV - (v + step)) / step⌋ = ⌊(maxV - v) / step⌋ - 1 := by
    rw [heq, Int.floor_sub_one]
  have h1 : (0:ℤ) ≤ ⌊(maxV - v) / step⌋ := Int.floor_nonneg.mpr h0
  simp only [hfl]
  omega

/-- Modelled from the spec: the full grid is the Cartesian product of the
per-axis value set with itself (outer loop over one axis, inner over the
other, exactly as the preload loop in the README iterates). -/
def gridCoords (minV maxV step : ℚ) : List (ℚ × ℚ) :=
  List.product (axisValues maxV step minV) (axisValues maxV step minV)

theorem clampQ_le (lo hi v : ℚ) (h : lo ≤ hi) : clampQ lo hi v ≤ hi := by
  unfold clampQ
  exact max_le h (min_le_left _ _)

theorem le_clampQ (lo hi v : ℚ) : lo ≤ clampQ lo hi v := le_max_left _ _

theorem clampQ_of_mem (lo hi v : ℚ) (h1 : lo ≤ v) (h2 : v ≤ hi) :
    clampQ lo hi v = v := by
  unfold clampQ
  rw [min_eq_right h2, max_eq_right h1]

theorem clampQ_cases (lo hi v : ℚ) :
    clampQ lo hi v = lo ∨ clampQ lo hi v = hi ∨ clampQ lo hi v = v := by
  unfold clampQ
  rcases le_total v hi with h | h
  · rw [min_eq_right h]
    rcases le_total v lo with h' | h'
    · exact Or.inl (max_eq_left h')
    · exact Or.inr (Or.inr (max_eq_right h'))
  · rw [min_eq_left h]
    rcases le_total hi lo with h' | h'
    · exact Or.inl (max_eq_left h')
    · exact Or.inr (Or.inl (max_eq_right h'))

/-- Closed form of the axis enumeration loop: starting at `v`, the loop emits
exactly the values `v + i * step` for `i` up to `⌊(maxV - v) / step⌋`. -/
theorem axisValues_eq_map (maxV step : ℚ) (hs : 0 < step) :
    ∀ (n : ℕ) (v : ℚ), v ≤ maxV → (⌊(maxV - v) / step⌋).toNat = n →
      axisValues maxV step v =
        (List.range (n + 1)).map (fun i : ℕ => v + (i : ℚ) * step) := by
  intro n
  induction n with
  | zero =>
    intro v hv hn
    have hnn : (0:ℚ) ≤ (maxV - v) / step := div_nonneg (by linarith) hs.le
    have hfl0 : ⌊(maxV - v) / step⌋ = 0 := by
      have := Int.floor_nonneg.mpr hnn
      omega
    have hlt : (maxV - v) / step < 1 := by
      have := Int.lt_floor_add_one ((maxV - v) / step)
      rw [hfl0] at this
      simpa using this
    have hstep : maxV - v < step := by
      have := (div_lt_one hs).mp hlt
      linarith
    rw [axisValues]
    rw [dif_pos ⟨hs, hv⟩]
    rw [axisValues]
    rw [dif_neg (by push_neg; intro _; linarith)]
    norm_num [List.range_succ]
  | succ k ih =>
    intro v hv hn
    have hnn : (0:ℚ) ≤ (maxV - v) / step := div_nonneg (by linarith) hs.le
    have hfl : ⌊(maxV - v) / step⌋ = (k : ℤ) + 1 := by
      have := Int.floor_nonneg.mpr hnn
      omega
    have hge : ((k : ℚ) + 1) ≤ (maxV - v) / step := by
      have := Int.floor_le ((maxV - v) / step)
      rw [hfl] at this
      push_cast at this
      linarith [Int.floor_le ((maxV - v) / step)]
    have hge' : step * ((k:ℚ) + 1) ≤ maxV - v := by
      have := (le_div_iff₀ hs).mp hge
      linarith
    have hv' : v + step ≤ maxV := by nlinarith
    have heq : (maxV - (v + step)) / step = (maxV - v) / step - 1 := by
      field_simp
      ring
    have hfl' : (⌊(maxV - (v + step)) / step⌋).toNat = k := by
      rw [heq]
      rw [Int.floor_sub_one, hfl]
      omega
    rw [axisValues]
    rw [dif_pos ⟨hs, hv⟩]
    rw [ih (v + step) hv' hfl']
    conv_rhs => rw [List.range_succ_eq_map]
    simp only [List.map_cons, List.map_map, List.cons.injEq]
    refine ⟨by push_cast; ring, ?_⟩
    apply List.map_congr_left
    intro i _
    simp only [Function.comp_apply]
    push_cast
    ring

/-- The number of values the axis loop emits. -/
theorem axisValues_length (minV maxV step : ℚ) (hs : 0 < step)
    (hle : minV ≤ maxV) :
    (axisValues maxV step minV).length = (⌊(maxV - minV) / step⌋).toNat + 1 := by
  rw [axisValues_eq_map maxV step hs (⌊(maxV - minV) / step⌋).toNat minV hle rfl]
  rw [List.length_map, List.length_range]

/-- Membership characterization for the axis loop. -/
theorem axisValues_mem_iff (minV maxV step : ℚ) (hs : 0 < step)
    (hle : minV ≤ maxV) (w : ℚ) :
    w ∈ axisValues maxV step minV ↔
      ∃ i : ℕ, (i : ℤ) ≤ ⌊(maxV - minV) / step⌋ ∧ w = minV + (i : ℚ) * step := by
  rw [axisValues_eq_map maxV step hs (⌊(maxV - minV) / step⌋).toNat minV hle rfl]
  simp only [List.mem_map, List.mem_range]
  have hnn : (0:ℤ) ≤ ⌊(maxV - minV) / step⌋ :=
    Int.floor_nonneg.mpr (div_nonneg (by linarith) hs.le)
  constructor
  · rintro ⟨i, hi, rfl⟩
    exact ⟨i, by omega, rfl⟩
  · rintro ⟨i, hi, rfl⟩
    exact ⟨i, by omega, rfl⟩

/-- Every value the axis loop emits lies in the configured closed range. -/
theorem axisValues_mem_bounds (minV maxV step : ℚ) (hs : 0 < step)
    (hle : minV ≤ maxV) (w : ℚ) (hw : w ∈ axisValues maxV step minV) :
    minV ≤ w ∧ w ≤ maxV := by
  rw [axisValues_mem_iff minV maxV step hs hle] at hw
  obtain ⟨i, hi, rfl⟩ := hw
  constructor
  · nlinarith [Nat.cast_nonneg (α := ℚ) i, hs.le]
  · have hle' : (i : ℚ) ≤ (maxV - minV) / step := by
      calc (i : ℚ) ≤ (⌊(maxV - minV) / step⌋ : ℚ) := by exact_mod_cast hi
        _ ≤ (maxV - minV) / step := Int.floor_le _
    have := (le_div_iff₀ hs).mp hle'
    linarith

/-- A snapped value always lies in the configured range. -/
theorem snapQ_bounds (lo hi step v : ℚ) (h : lo ≤ hi) :
    lo ≤ snapQ lo hi step v ∧ snapQ lo hi step v ≤ hi :=
  ⟨le_clampQ _ _ _, clampQ_le _ _ _ h⟩

/-- Snapping an exact multiple of `step` only clamps it. -/
theorem snapQ_intCast_mul (lo hi step : ℚ) (hs : step ≠ 0) (m : ℤ) :
    snapQ lo hi step ((m : ℚ) * step) = clampQ lo hi ((m : ℚ) * step) := by
  unfold snapQ
  rw [mul_div_cancel_right₀ _ hs, round_intCast]

/-- Snapping is idempotent whenever the range endpoints are themselves exact
multiples of `step` (as they are in every documented configuration). -/
theorem snapQ_idem_general (lo hi step v : ℚ) (hs : step ≠ 0)
    (hlo : ∃ kl : ℤ, lo = (kl : ℚ) * step) (hhi : ∃ kh : ℤ, hi = (kh : ℚ) * step)
    (hle : lo ≤ hi) :
    snapQ lo hi step (snapQ lo hi step v) = snapQ lo hi step v := by
  obtain ⟨kl, hkl⟩ := hlo
  obtain ⟨kh, hkh⟩ := hhi
  have hw : ∃ m : ℤ, snapQ lo hi step v = (m : ℚ) * step := by
    rcases clampQ_cases lo hi ((round (v / step) : ℤ) * step) with h | h | h
    · exact ⟨kl, by unfold snapQ; rw [h, hkl]⟩
    · exact ⟨kh, by unfold snapQ; rw [h, hkh]⟩
    · exact ⟨round (v / step), by unfold snapQ; rw [h]⟩
  obtain ⟨m, hm⟩ := hw
  have hb := snapQ_bounds lo hi step v hle
  rw [hm] at hb ⊢
  rw [snapQ_intCast_mul lo hi step hs m, clampQ_of_mem _ _ _ hb.1 hb.2]

/-- The documented Resolver configuration snap fixes `0`. -/
theorem snapQ_cfg_zero : snapQ (-15) 15 3 0 = 0 := by
  unfold snapQ clampQ
  norm_num [round_eq]

/-- The documented Resolver configuration snap fixes the upper endpoint. -/
theorem snapQ_cfg_hi : snapQ (-15) 15 3 15 = 15 := by
  unfold snapQ clampQ
  norm_num [round_eq]

/-- The documented Resolver configuration snap fixes the lower endpoint. -/
theorem snapQ_cfg_lo : snapQ (-15) 15 3 (-15) = -15 := by
  unfold snapQ clampQ
  norm_num [round_eq]

/-- Normalization sends the container center to the center gaze value. -/
theorem normalizeQ_center (w : ℚ) (hw : w ≠ 0) :
    normalizeQ (-15) 15 w (w / 2) = 0 := by
  unfold normalizeQ clampQ
  have hx : w / 2 / w = 1 / 2 := by
    field_simp
    ring
  rw [hx]
  norm_num

/-- Normalization sends the far container edge to the maximum gaze value. -/
theorem normalizeQ_far (w : ℚ) (hw : w ≠ 0) :
    normalizeQ (-15) 15 w w = 15 := by
  unfold normalizeQ clampQ
  rw [div_self hw]
  norm_num

/-- Normalization sends the near container edge to the minimum gaze value. -/
theorem normalizeQ_near (w : ℚ) :
    normalizeQ (-15) 15 w 0 = -15 := by
  unfold normalizeQ clampQ
  norm_num

/-- A pointer offset at or beyond the near container edge normalizes to the
minimum gaze value. -/
theorem normalizeQ_near_oob (w pos : ℚ) (hw : 0 < w) (hpos : pos ≤ 0) :
    normalizeQ (-15) 15 w pos = -15 := by
  unfold normalizeQ clampQ
  have hq : pos / w ≤ 0 := div_nonpos_iff.mpr (Or.inr ⟨hpos, hw.le⟩)
  have ht : -15 + pos / w * (15 - -15) ≤ -15 := by nlinarith
  rw [min_eq_right (by linarith), max_eq_left (by linarith)]

/-- A pointer offset at or beyond the far container edge normalizes to the
maximum gaze value. -/
theorem normalizeQ_far_oob (w pos : ℚ) (hw : 0 < w) (hpos : w ≤ pos) :
    normalizeQ (-15) 15 w pos = 15 := by
  unfold normalizeQ clampQ
  have hq : (1:ℚ) ≤ pos / w := (one_le_div hw).mpr hpos
  have ht : (15:ℚ) ≤ -15 + pos / w * (15 - -15) := by nlinarith
  rw [min_eq_left (by linarith)]
  norm_num

/-- Claim C3: the Resolver's snapping at its documented configuration
(min = -15, max = 15, step = 3) is idempotent — snapping an already-snapped
coordinate returns it unchanged, on each axis independently. -/
theorem resolver_snap_idempotent (v : ℚ) :
    snapQ (-15) 15 3 (snapQ (-15) 15 3 v) = snapQ (-15) 15 3 v :=
  snapQ_idem_general (-15) 15 3 v (by norm_num)
    ⟨-5, by norm_num⟩ ⟨5, by norm_num⟩ (by norm_num)

/-- Claim C2: every resolved coordinate lies within the gaze range on both
axes, a pointer at or beyond a container edge resolves to that edge
coordinate, and at the documented configuration the container center resolves
to (0,0), the far right-center edge to (15,0), and the top-left corner to
(-15,-15). -/
theorem resolver_clamped_resolution :
    (∀ lo hi step w h x y : ℚ, lo ≤ hi →
        (lo ≤ (resolvePoint lo hi step w h x y).1 ∧
          (resolvePoint lo hi step w h x y).1 ≤ hi) ∧
        (lo ≤ (resolvePoint lo hi step w h x y).2 ∧
          (resolvePoint lo hi step w h x y).2 ≤ hi)) ∧
    (∀ w h x y : ℚ, 0 < w → x ≤ 0 →
        (resolvePoint (-15) 15 3 w h x y).1 = -15) ∧
    (∀ w h x y : ℚ, 0 < w → w ≤ x →
        (resolvePoint (-15) 15 3 w h x y).1 = 15) ∧
    (∀ w h : ℚ, 0 < w → 0 < h →
        resolvePoint (-15) 15 3 w h (w / 2) (h / 2) = (0, 0)) ∧
    (∀ w h : ℚ, 0 < w → 0 < h →
        resolvePoint (-15) 15 3 w h w (h / 2) = (15, 0)) ∧
    (∀ w h : ℚ, 0 < w → 0 < h →
        resolvePoint (-15) 15 3 w h 0 0 = (-15, -15)) := by
  refine ⟨?_, ?_, ?_, ?_, ?_, ?_⟩
  · intro lo hi step w h x y hle
    exact ⟨snapQ_bounds lo hi step _ hle, snapQ_bounds lo hi step _ hle⟩
  · intro w h x y hw hx
    show resolveAxis (-15) 15 3 w x = -15
    unfold resolveAxis
    rw [normalizeQ_near_oob w x hw hx, snapQ_cfg_lo]
  · intro w h x y hw hx
    show resolveAxis (-15) 15 3 w x = 15
    unfold resolveAxis
    rw [normalizeQ_far_oob w x hw hx, snapQ_cfg_hi]
  · intro w h hw hh
    unfold resolvePoint resolveAxis
    rw [normalizeQ_center w hw.ne', normalizeQ_center h hh.ne', snapQ_cfg_zero]
  · intro w h hw hh
    unfold resolvePoint resolveAxis
    rw [normalizeQ_far w hw.ne', normalizeQ_center h hh.ne',
      snapQ_cfg_zero, snapQ_cfg_hi]
  · intro w h hw hh
    unfold resolvePoint resolveAxis
    rw [normalizeQ_near w, normalizeQ_near h, snapQ_cfg_lo]

/-- Witness for C2 at a concrete 400×400 container and an out-of-bounds
pointer sample. -/
theorem resolver_clamped_resolution_witness :
    (((-15:ℚ) ≤ (resolvePoint (-15) 15 3 400 400 900 (-50)).1 ∧
        (resolvePoint (-15) 15 3 400 400 900 (-50)).1 ≤ 15) ∧
      ((-15:ℚ) ≤ (resolvePoint (-15) 15 3 400 400 900 (-50)).2 ∧
        (resolvePoint (-15) 15 3 400 400 900 (-50)).2 ≤ 15)) ∧
    resolvePoint (-15) 15 3 400 400 200 200 = ((0:ℚ), (0:ℚ)) :=
  ⟨resolver_clamped_resolution.1 (-15) 15 3 400 400 900 (-50) (by norm_num),
    by
      have h := resolver_clamped_resolution.2.2.2.1 400 400
        (by norm_num) (by norm_num)
      norm_num at h
      exact h⟩

/-- State of a Grid Generator run: coordinates that currently have an output
file on disk, coordinates for which a generation request has been issued this
run, and the rows of the index file. -/
structure GenState where
  files : List (ℚ × ℚ)
  requests : List (ℚ × ℚ)
  indexRows : List (ℚ × ℚ)

/-- Modelled from the spec: one iteration of `main.py`'s coordinate loop
(`main.py` is absent from the snapshot).  With skip-existing set, a
coordinate whose output file already exists is not re-requested and its row
is recorded in the index; otherwise one generation request is issued and, on
success, the output file is written and its row recorded, while a failed
request is skipped without corrupting the index. -/
def runStep (skipExisting : Bool) (succeeds : ℚ × ℚ → Bool)
    (st : GenState) (c : ℚ × ℚ) : GenState :=
  if skipExisting = true ∧ c ∈ st.files then
    { st with indexRows := st.indexRows ++ [c] }
  else if succeeds c then
    { files := st.files ++ [c], requests := st.requests ++ [c],
      indexRows := st.indexRows ++ [c] }
  else
    { st with requests := st.requests ++ [c] }

/-- Modelled from the spec: a full Grid Generator run over `grid`, starting
against an output directory that already holds files for `existing`. -/
def runGen (skipExisting : Bool) (succeeds : ℚ × ℚ → Bool)
    (existing grid : List (ℚ × ℚ)) : GenState :=
  grid.foldl (runStep skipExisting succeeds) ⟨existing, [], []⟩

theorem runStep_files_sub (sk : Bool) (succ : ℚ × ℚ → Bool) (st : GenState)
    (c : ℚ × ℚ) : st.files ⊆ (runStep sk succ st c).files := by
  unfold runStep
  split
  · exact fun _ h => h
  · split
    · exact fun _ h => List.mem_append_left _ h
    · exact fun _ h => h

theorem runStep_index_sub (sk : Bool) (succ : ℚ × ℚ → Bool) (st : GenState)
    (c : ℚ × ℚ) : st.indexRows ⊆ (runStep sk succ st c).indexRows := by
  unfold runStep
  split
  · exact fun _ h => List.mem_append_left _ h
  · split
    · exact fun _ h => List.mem_append_left _ h
    · exact fun _ h => h

theorem foldl_runStep_index_sub (sk : Bool) (succ : ℚ × ℚ → Bool) :
    ∀ (grid : List (ℚ × ℚ)) (st : GenState),
      st.indexRows ⊆ (grid.foldl (runStep sk succ) st).indexRows := by
  intro grid
  induction grid with
  | nil => exact fun st _ h => h
  | cons g rest ih =>
    intro st e he
    exact ih (runStep sk succ st g) (runStep_index_sub sk succ st g he)

/-- With skip-existing, a coordinate whose file is present is never added to
the requests issued during the rest of the run. -/
theorem skip_existing_no_request_aux (succ : ℚ × ℚ → Bool) :
    ∀ (grid : List (ℚ × ℚ)) (st : GenState) (e : ℚ × ℚ),
      e ∈ st.files → e ∉ st.requests →
      e ∉ (grid.foldl (runStep true succ) st).requests := by
  intro grid
  induction grid with
  | nil => exact fun st e _ hr => hr
  | cons g rest ih =>
    intro st e hf hr
    apply ih (runStep true succ st g) e (runStep_files_sub true succ st g hf)
    by_cases hmem : g ∈ st.files
    · have : runStep true succ st g = { st with indexRows := st.indexRows ++ [g] } := by
        unfold runStep
        rw [if_pos ⟨rfl, hmem⟩]
      rw [this]
      exact hr
    · have hne : e ≠ g := fun hcontra => hmem (hcontra ▸ hf)
      unfold runStep
      rw [if_neg (fun hcontra => hmem hcontra.2)]
      split
      · intro hcontra
        rcases List.mem_append.mp hcontra with h | h
        · exact hr h
        · exact hne (List.mem_singleton.mp h)
      · intro hcontra
        rcases List.mem_append.mp hcontra with h | h
        · exact hr h
        · exact hne (List.mem_singleton.mp h)

/-- With skip-existing, a pre-existing coordinate that the grid revisits gets
its row recorded in the final index. -/
theorem skip_existing_index_aux (succ : ℚ × ℚ → Bool) :
    ∀ (grid : List (ℚ × ℚ)) (st : GenState) (e : ℚ × ℚ),
      e ∈ st.files → e ∈ grid →
      e ∈ (grid.foldl (runStep true succ) st).indexRows := by
  intro grid
  induction grid with
  | nil => exact fun st e _ hg => absurd hg (List.not_mem_nil e)
  | cons g rest ih =>
    intro st e hf hg
    rcases List.mem_cons.mp hg with rfl | hg'
    · have hrow : e ∈ (runStep true succ st e).indexRows := by
        unfold runStep
        rw [if_pos ⟨rfl, hf⟩]
        exact List.mem_append_right _ (List.mem_singleton.mpr rfl)
      exact foldl_runStep_index_sub true succ rest (runStep true succ st e) hrow
    · exact ih (runStep true succ st g) e (runStep_files_sub true succ st g hf) hg'

/-- Claim C5: rerunning in skip-existing mode against a directory already
holding a subset of the outputs issues no generation request for any
pre-existing coordinate, and the final index rows are a superset of the rows
for the pre-existing outputs. -/
theorem skip_existing_idempotent (succeeds : ℚ × ℚ → Bool)
    (existing grid : List (ℚ × ℚ)) (hsub : existing ⊆ grid) :
    (∀ c ∈ existing, c ∉ (runGen true succeeds existing grid).requests) ∧
    (∀ c ∈ existing, c ∈ (runGen true succeeds existing grid).indexRows) := by
  constructor
  · intro c hc
    exact skip_existing_no_request_aux succeeds grid ⟨existing, [], []⟩ c hc
      (List.not_mem_nil c)
  · intro c hc
    exact skip_existing_index_aux succeeds grid ⟨existing, [], []⟩ c hc (hsub hc)

/-- Witness for C5: a two-coordinate grid with one pre-existing output. -/
theorem skip_existing_idempotent_witness :
    (∀ c ∈ [((0:ℚ), (0:ℚ))],
        c ∉ (runGen true (fun _ => true) [((0:ℚ), (0:ℚ))]
          [((0:ℚ), (0:ℚ)), ((3:ℚ), (0:ℚ))]).requests) ∧
    (∀ c ∈ [((0:ℚ), (0:ℚ))],
        c ∈ (runGen true (fun _ => true) [((0:ℚ), (0:ℚ))]
          [((0:ℚ), (0:ℚ)), ((3:ℚ), (0:ℚ))]).indexRows) :=
  skip_existing_idempotent (fun _ => true) [((0:ℚ), (0:ℚ))]
    [((0:ℚ), (0:ℚ)), ((3:ℚ), (0:ℚ))]
    (fun c hc => List.mem_cons.mpr (Or.inl (List.mem_singleton.mp hc)))

/-- The image-count estimate computed by `generate.sh` line 66 with `bc` at
`scale=0`: `((15 - (-15)) / step + 1) ^ 2`, division truncating. -/
def imagesEstimate (step : ℚ) : ℤ := (⌊((15:ℚ) - (-15)) / step⌋ + 1) ^ 2

/-- On an all-successful run every grid coordinate contributes exactly one
index row. -/
theorem runStep_index_length_clean (sk : Bool) (st : GenState) (c : ℚ × ℚ) :
    ((runStep sk (fun _ => true) st c).indexRows).length =
      st.indexRows.length + 1 := by
  unfold runStep
  split
  · rw [List.length_append, List.length_singleton]
  · rw [if_pos rfl, List.length_append, List.length_singleton]

theorem runGen_index_length_clean (sk : Bool) :
    ∀ (grid : List (ℚ × ℚ)) (st : GenState),
      ((grid.foldl (runStep sk (fun _ => true)) st).indexRows).length =
        st.indexRows.length + grid.length := by
  intro grid
  induction grid with
  | nil => intro st; rfl
  | cons g rest ih =>
    intro st
    rw [List.foldl_cons, ih (runStep sk (fun _ => true) st g),
      runStep_index_length_clean, List.length_cons]
    omega

/-- The per-axis value list of the default range at step 5 has 7 entries. -/
theorem axisValues_default_step5_length :
    (axisValues 15 5 (-15)).length = 7 := by
  rw [axisValues_length (-15) 15 5 (by norm_num) (by norm_num)]
  rw [show ⌊((15:ℚ) - (-15)) / 5⌋ = 6 by norm_num]
  rfl

/-- Claim C1: for every valid configuration the axis contains exactly
`floor((max-min)/step) + 1` values, all within the closed range; the default
range at step 5 yields exactly 49 coordinate pairs, matching the shell
script's own estimate, and a clean failure-free run records exactly 49 index
rows. -/
theorem grid_enumeration_correct :
    (∀ minV maxV step : ℚ, 0 < step → minV ≤ maxV →
        (axisValues maxV step minV).length =
          (⌊(maxV - minV) / step⌋).toNat + 1 ∧
        ∀ v ∈ axisValues maxV step minV, minV ≤ v ∧ v ≤ maxV) ∧
    (gridCoords (-15) 15 5).length = 49 ∧
    ((gridCoords (-15) 15 5).length : ℤ) = imagesEstimate 5 ∧
    (runGen false (fun _ => true) [] (gridCoords (-15) 15 5)).indexRows.length
      = 49 := by
  have hgrid : (gridCoords (-15) 15 5).length = 49 := by
    show ((axisValues 15 5 (-15)) ×ˢ (axisValues 15 5 (-15))).length = 49
    rw [List.length_product, axisValues_default_step5_length]
  refine ⟨?_, hgrid, ?_, ?_⟩
  · intro minV maxV step hs hle
    exact ⟨axisValues_length minV maxV step hs hle,
      fun v hv => axisValues_mem_bounds minV maxV step hs hle v hv⟩
  · rw [hgrid]
    unfold imagesEstimate
    rw [show ⌊((15:ℚ) - (-15)) / 5⌋ = 6 by norm_num]
    rfl
  · unfold runGen
    rw [runGen_index_length_clean false (gridCoords (-15) 15 5) ⟨[], [], []⟩,
      hgrid]
    rfl

/-- Witness for C1 at the default range with step 5. -/
theorem grid_enumeration_correct_witness :
    (axisValues 15 5 (-15)).length = (⌊((15:ℚ) - (-15)) / 5⌋).toNat + 1 ∧
    ∀ v ∈ axisValues 15 5 (-15), (-15:ℚ) ≤ v ∧ v ≤ 15 :=
  grid_enumeration_correct.1 (-15) 15 5 (by norm_num) (by norm_num)

/-- Claim C4 counterexample: with the valid symmetric configuration
min = -15, max = 15 and step = 4 (step does not divide the range), the
enumerated per-axis set is not symmetric about zero: 13 is enumerated but
-13 is not. -/
theorem grid_symmetry_cex :
    ¬ (∀ v : ℚ, v ∈ axisValues 15 4 (-15) ↔ -v ∈ axisValues 15 4 (-15)) := by
  intro hsym
  have hfl : ⌊((15:ℚ) - (-15)) / 4⌋ = 7 := by norm_num
  have h13 : (13:ℚ) ∈ axisValues 15 4 (-15) := by
    rw [axisValues_mem_iff (-15) 15 4 (by norm_num) (by norm_num)]
    exact ⟨7, by rw [hfl]; norm_num, by norm_num⟩
  have hm13 := (hsym 13).mp h13
  rw [axisValues_mem_iff (-15) 15 4 (by norm_num) (by norm_num)] at hm13
  obtain ⟨i, hi, heq⟩ := hm13
  have hhalf : (i : ℚ) = 1 / 2 := by linarith
  rcases Nat.eq_zero_or_pos i with rfl | hpos
  · norm_num at hhalf
  · have : (1:ℚ) ≤ (i : ℚ) := by exact_mod_cast hpos
    linarith

/-- Claim C4 (amended): when `min = -max` and the range is an exact whole
multiple of `step`, the enumerated per-axis set is symmetric about zero. -/
theorem grid_symmetry_amended (minV maxV step : ℚ) (hs : 0 < step)
    (hsym : minV = -maxV) (hle : minV ≤ maxV) (n : ℕ)
    (hdvd : maxV - minV = (n : ℚ) * step) :
    ∀ v : ℚ, v ∈ axisValues maxV step minV ↔ -v ∈ axisValues maxV step minV := by
  have hfl : ⌊(maxV - minV) / step⌋ = (n : ℤ) := by
    rw [hdvd, mul_div_cancel_right₀ _ hs.ne']
    exact_mod_cast Int.floor_natCast n
  have key : ∀ v : ℚ, v ∈ axisValues maxV step minV →
      -v ∈ axisValues maxV step minV := by
    intro v hv
    rw [axisValues_mem_iff minV maxV step hs hle] at hv ⊢
    obtain ⟨i, hi, rfl⟩ := hv
    rw [hfl] at hi
    have hin : i ≤ n := by exact_mod_cast hi
    refine ⟨n - i, by rw [hfl]; omega, ?_⟩
    have hcast : ((n - i : ℕ) : ℚ) = (n : ℚ) - (i : ℚ) := by
      push_cast [Nat.cast_sub hin]
      ring
    rw [hcast]
    have hmax : -minV = maxV := by rw [hsym]; ring
    have : maxV = minV + (n : ℚ) * step := by linarith [hdvd]
    nlinarith [this]
  intro v
  constructor
  · exact key v
  · intro hv
    have := key (-v) hv
    rwa [neg_neg] at this

/-- Witness for the amended C4 at the default symmetric range with step 5. -/
theorem grid_symmetry_amended_witness :
    (10:ℚ) ∈ axisValues 15 5 (-15) ↔ -(10:ℚ) ∈ axisValues 15 5 (-15) :=
  grid_symmetry_amended (-15) 15 5 (by norm_num) (by norm_num) (by norm_num)
    6 (by norm_num) 10

/-- Inputs that `generate.sh` reads: the credential environment variable (an
empty string models an unset variable), the first positional argument, which
paths exist as regular files, and the confirmation reply. -/
structure ShellEnv where
  replicateApiToken : String
  arg1 : String
  fileExists : String → Bool
  reply : String

/-- Observable outcome of a `generate.sh` run: the exit code and whether the
`python main.py` generation step was ever invoked. -/
structure ShellOutcome where
  exitCode : ℕ
  ranMain : Bool

/-- Control flow of `generate.sh` (src/unnamed/part_001): exit 1 when
`REPLICATE_API_TOKEN` is empty (lines 11-19), when no image argument is given
(lines 36-46), or when the image file does not exist (lines 53-56); exit 0
without generating when the confirmation reply is not y or Y (lines 71-76);
otherwise invoke `python main.py` with `--skip-existing` (lines 83-88). -/
def generateSh (env : ShellEnv) : ShellOutcome :=
  if env.replicateApiToken = "" then ⟨1, false⟩
  else if env.arg1 = "" then ⟨1, false⟩
  else if env.fileExists env.arg1 = false then ⟨1, false⟩
  else if env.reply = "y" ∨ env.reply = "Y" then ⟨0, true⟩
  else ⟨0, false⟩

/-- Claim C10: a missing credential aborts the run with exit 1 before any
generation, a missing source image aborts the run with exit 1 before any
generation, and generation only ever runs with the credential present and the
image existing. -/
theorem abort_on_missing_inputs (env : ShellEnv) :
    (env.replicateApiToken = "" → generateSh env = ⟨1, false⟩) ∧
    (env.replicateApiToken ≠ "" → env.arg1 ≠ "" →
        env.fileExists env.arg1 = false → generateSh env = ⟨1, false⟩) ∧
    ((generateSh env).ranMain = true →
        env.replicateApiToken ≠ "" ∧ env.fileExists env.arg1 = true) := by
  refine ⟨?_, ?_, ?_⟩
  · intro h1
    unfold generateSh
    rw [if_pos h1]
  · intro h1 h2 h3
    unfold generateSh
    rw [if_neg h1, if_neg h2, if_pos h3]
  · intro h
    constructor
    · intro h1
      unfold generateSh at h
      rw [if_pos h1] at h
      simp at h
    · by_cases h3 : env.fileExists env.arg1 = false
      · exfalso
        unfold generateSh at h
        by_cases h1 : env.replicateApiToken = ""
        · rw [if_pos h1] at h
          simp at h
        · by_cases h2 : env.arg1 = ""
          · rw [if_neg h1, if_pos h2] at h
            simp at h
          · rw [if_neg h1, if_neg h2, if_pos h3] at h
            simp at h
      · simpa using h3

/-- Witness for C10: an environment with the credential unset. -/
theorem abort_on_missing_inputs_witness :
    generateSh ⟨"", "face.jpg", fun _ => true, "y"⟩ =
      ({ exitCode := 1, ranMain := false } : ShellOutcome) :=
  (abort_on_missing_inputs ⟨"", "face.jpg", fun _ => true, "y"⟩).1 rfl

/-- Modelled from the spec: `main.py`'s encoding of one signed coordinate
value for a filename (`main.py` is absent from the snapshot) — a negative
value is written as the letter m followed by its magnitude, replacing the
sign character. -/
def encodeCoord (v : ℤ) : String :=
  if v < 0 then "m" ++ toString (-v) else toString v

/-- Modelled from the spec: the deterministic output filename pattern
`gaze_px{X}_py{Y}_{SIZE}.webp` derived from a coordinate and output size. -/
def gazeFilename (px py : ℤ) (size : ℕ) : String :=
  "gaze_px" ++ encodeCoord px ++ "_py" ++ encodeCoord py ++ "_" ++
    toString size ++ ".webp"

/-- Claim C9: generated filenames follow the deterministic pattern
`gaze_px{X}_py{Y}_{SIZE}.webp`, matching the README's documented examples,
with each negative coordinate written with the textual marker m in place of
the minus sign (the encoded name contains no minus character). -/
theorem filename_encoding :
    gazeFilename 0 0 256 = "gaze_px0_py0_256.webp" ∧
    gazeFilename 15 0 256 = "gaze_px15_py0_256.webp" ∧
    gazeFilename 0 (-15) 256 = "gaze_px0_pym15_256.webp" ∧
    (∀ px py : ℤ, ∀ size : ℕ, gazeFilename px py size =
        "gaze_px" ++ encodeCoord px ++ "_py" ++ encodeCoord py ++ "_" ++
          toString size ++ ".webp") ∧
    (∀ v : ℤ, v < 0 → encodeCoord v = "m" ++ toString (-v)) ∧
    (∀ v : ℤ, 0 ≤ v → encodeCoord v = toString v) ∧
    ('-' ∉ (gazeFilename (-15) (-15) 256).toList ∧
      gazeFilename (-15) (-15) 256 = "gaze_pxm15_pym15_256.webp") := by
  refine ⟨by decide, by decide, by decide, fun _ _ _ => rfl, ?_, ?_, by decide⟩
  · intro v hv
    unfold encodeCoord
    rw [if_pos hv]
  · intro v hv
    unfold encodeCoord
    rw [if_neg (not_lt.mpr hv)]

/-- Witness for C9 at a concrete negative coordinate value. -/
theorem filename_encoding_witness :
    encodeCoord (-7) = "m" ++ toString (-(-7) : ℤ) :=
  filename_encoding.2.2.2.2.1 (-7) (by norm_num)

/-- Resolver state: the currently selected grid coordinate and the coordinate
whose asset is currently displayed (`none` before any fetch completes). -/
structure ResolverState where
  coord : ℚ × ℚ
  displayed : Option (ℚ × ℚ)

/-- Events the Resolver reacts to: a pointer sample in container pixels, or
the completion of an asynchronous asset fetch issued for a coordinate. -/
inductive Event
  | pointerMove (x y : ℚ)
  | fetchDone (c : ℚ × ℚ)

/-- Modelled from the spec: the Resolver's reactive transition
(`useGazeTracking.js` is absent from the snapshot).  A pointer sample
re-resolves the coordinate and changes state only when the snapped coordinate
differs from the previous one; a completed fetch updates the displayed asset
only when its coordinate is still the currently selected one, so a stale
fetch is discarded. -/
def stepEv (lo hi step w h : ℚ) (st : ResolverState) : Event → ResolverState
  | Event.pointerMove x y =>
      if resolvePoint lo hi step w h x y = st.coord then st
      else { st with coord := resolvePoint lo hi step w h x y }
  | Event.fetchDone c =>
      if c = st.coord then { st with displayed := some c } else st

/-- Modelled from the spec: the Resolver's initial state before any pointer
sample — the snap of the container-center gaze value 0 on each axis, with no
asset displayed yet. -/
def initState (lo hi step : ℚ) : ResolverState :=
  { coord := (snapQ lo hi step 0, snapQ lo hi step 0), displayed := none }

/-- Claim C6: a pointer sample that snaps to the previous coordinate leaves
the Resolver state unchanged; if the state changed the snapped coordinate
differed; and re-processing the same sample is a no-op, so sub-cell jitter
causes at most one swap per boundary crossing. -/
theorem resolver_single_swap (lo hi step w h : ℚ) (st : ResolverState)
    (x y : ℚ) :
    (resolvePoint lo hi step w h x y = st.coord →
        stepEv lo hi step w h st (Event.pointerMove x y) = st) ∧
    (stepEv lo hi step w h st (Event.pointerMove x y) ≠ st →
        resolvePoint lo hi step w h x y ≠ st.coord) ∧
    stepEv lo hi step w h (stepEv lo hi step w h st (Event.pointerMove x y))
        (Event.pointerMove x y) =
      stepEv lo hi step w h st (Event.pointerMove x y) := by
  refine ⟨?_, ?_, ?_⟩
  · intro hc
    simp [stepEv, hc]
  · intro hne hc
    exact hne (by simp [stepEv, hc])
  · by_cases hc : resolvePoint lo hi step w h x y = st.coord
    · simp [stepEv, hc]
    · simp [stepEv, hc]

/-- Witness for C6: at the initial state, a pointer sample at the center of a
400×400 container snaps to the already-selected coordinate and the state is
unchanged. -/
theorem resolver_single_swap_witness :
    stepEv (-15) 15 3 400 400 (initState (-15) 15 3)
        (Event.pointerMove 200 200) = initState (-15) 15 3 := by
  have hax : resolveAxis (-15) 15 3 400 200 = 0 := by
    unfold resolveAxis
    have hn : normalizeQ (-15) 15 400 200 = 0 := by
      unfold normalizeQ clampQ
      norm_num
    rw [hn, snapQ_cfg_zero]
  have hcoord : (initState (-15) 15 3).coord = ((0:ℚ), (0:ℚ)) := by
    unfold initState
    rw [snapQ_cfg_zero]
  exact (resolver_single_swap (-15) 15 3 400 400 (initState (-15) 15 3)
    200 200).1 (by unfold resolvePoint; rw [hax, hcoord])

/-- Claim C7: before any pointer sample the Resolver's selected coordinate is
the snap of the center value — equal to (0,0) whenever 0 lies in the range,
and a grid coordinate when the range endpoints sit on the step lattice; when
0 lies outside the range the selection is the endpoint nearest to zero, which
is the nearest enumerated value to zero; the initial state is always defined,
with no asset displayed yet. -/
theorem resolver_initial_state (lo hi step : ℚ) (hs : 0 < step)
    (hle : lo ≤ hi) :
    ((initState lo hi step).displayed = none) ∧
    (lo ≤ 0 → 0 ≤ hi → (initState lo hi step).coord = (0, 0)) ∧
    (lo ≤ 0 → 0 ≤ hi → ∀ kl : ℤ, lo = (kl : ℚ) * step →
        ((0:ℚ), (0:ℚ)) ∈ gridCoords lo hi step) ∧
    (0 < lo → (initState lo hi step).coord = (lo, lo) ∧
        ∀ v ∈ axisValues hi step lo, |lo| ≤ |v|) ∧
    (hi < 0 → (initState lo hi step).coord = (hi, hi) ∧
        ∀ v ∈ axisValues hi step lo, |hi| ≤ |v|) := by
  have hz : snapQ lo hi step 0 = clampQ lo hi 0 := by
    unfold snapQ
    rw [zero_div, round_zero]
    norm_num
  refine ⟨rfl, ?_, ?_, ?_, ?_⟩
  · intro h1 h2
    unfold initState
    rw [hz, clampQ_of_mem lo hi 0 h1 h2]
  · intro h1 h2 kl hkl
    have hzero : (0:ℚ) ∈ axisValues hi step lo := by
      rw [axisValues_mem_iff lo hi step hs hle]
      have hklneg : kl ≤ 0 := by
        by_contra hcon
        push_neg at hcon
        have hcast : (1:ℚ) ≤ (kl : ℚ) := by exact_mod_cast hcon
        nlinarith
      refine ⟨(-kl).toNat, ?_, ?_⟩
      · rw [Int.le_floor]
        have hcast : (((-kl).toNat : ℤ) : ℚ) = -(kl : ℚ) := by
          rw [Int.toNat_of_nonneg (by omega)]
          push_cast
          ring
        rw [hcast]
        rw [le_div_iff₀ hs]
        nlinarith [hkl]
      · have hcast : (((-kl).toNat : ℕ) : ℚ) = -(kl : ℚ) := by
          have := Int.toNat_of_nonneg (show (0:ℤ) ≤ -kl by omega)
          exact_mod_cast congrArg (fun z : ℤ => (z : ℚ)) this
        rw [hcast, hkl]
        ring
    show ((0:ℚ), (0:ℚ)) ∈ List.product (axisValues hi step lo) (axisValues hi step lo)
    exact List.mem_product.mpr ⟨hzero, hzero⟩
  · intro hpos
    have hc : clampQ lo hi 0 = lo := by
      unfold clampQ
      rw [min_eq_right (by linarith), max_eq_left (by linarith)]
    constructor
    · unfold initState
      rw [hz, hc]
    · intro v hv
      have hb := axisValues_mem_bounds lo hi step hs hle v hv
      rw [abs_of_pos hpos, abs_of_pos (lt_of_lt_of_le hpos hb.1)]
      exact hb.1
  · intro hneg
    have hc : clampQ lo hi 0 = hi := by
      unfold clampQ
      rw [min_eq_left (by linarith), max_eq_right hle]
    constructor
    · unfold initState
      rw [hz, hc]
    · intro v hv
      have hb := axisValues_mem_bounds lo hi step hs hle v hv
      rw [abs_of_neg hneg, abs_of_neg (lt_of_le_of_lt hb.2 hneg)]
      linarith [hb.2]

/-- Witness for C7 at the documented configuration. -/
theorem resolver_initial_state_witness :
    (initState (-15) 15 3).coord = ((0:ℚ), (0:ℚ)) ∧
    ((0:ℚ), (0:ℚ)) ∈ gridCoords (-15) 15 3 :=
  ⟨(resolver_initial_state (-15) 15 3 (by norm_num) (by norm_num)).2.1
      (by norm_num) (by norm_num),
    (resolver_initial_state (-15) 15 3 (by norm_num) (by norm_num)).2.2.1
      (by norm_num) (by norm_num) (-5) (by norm_num)⟩

/-- Claim C8: a fetch completing for a coordinate that is no longer the
current selection is discarded and the state is unchanged; a fetch for the
current selection updates only the displayed asset; no fetch completion ever
changes the selected coordinate. -/
theorem stale_fetch_discarded (lo hi step w h : ℚ) (st : ResolverState)
    (c : ℚ × ℚ) :
    (c ≠ st.coord → stepEv lo hi step w h st (Event.fetchDone c) = st) ∧
    (c = st.coord → stepEv lo hi step w h st (Event.fetchDone c) =
        { st with displayed := some st.coord }) ∧
    (stepEv lo hi step w h st (Event.fetchDone c)).coord = st.coord := by
  refine ⟨?_, ?_, ?_⟩
  · intro hne
    simp [stepEv, hne]
  · intro hc
    simp [stepEv, hc]
  · by_cases hc : c = st.coord
    · simp [stepEv, hc]
    · simp [stepEv, hc]

/-- Witness for C8: a late fetch for a superseded coordinate at the initial
state is discarded. -/
theorem stale_fetch_discarded_witness :
    stepEv (-15) 15 3 400 400 (initState (-15) 15 3)
        (Event.fetchDone ((3:ℚ), (0:ℚ))) = initState (-15) 15 3 :=
  (stale_fetch_discarded (-15) 15 3 400 400 (initState (-15) 15 3)
    ((3:ℚ), (0:ℚ))).1
    (by
      unfold initState
      rw [snapQ_cfg_zero]
      decide)

end FaceLooker
